import Mathlib

/-!
Verification of the WebSocket protocol primitives in `src/wsproto.rs`:
the opcode and close-code wire tables, the from-scratch base64 encoder,
and the handshake accept-key derivation (`hash_key`).

Machine integers (`u8`, `u16`, `u32`) are embedded as `Nat`; the byte and
16-bit domains appear as explicit `< 256` / `< 65536` hypotheses where a
claim ranges over them.  Fallible operations of the Rust code (slice
indexing, `Iterator::next().unwrap()`, `String::from_utf8(..).unwrap()`)
are embedded as `Option`-returning steps, so that "the function never
panics" becomes "the embedded function returns `some`".
-/

set_option autoImplicit false
set_option maxRecDepth 10000

/-- Operation codes of RFC 6455 frames, from `enum OpCode` in
`src/wsproto.rs`. -/
inductive OpCode where
  | Continue
  | Text
  | Binary
  | Close
  | Ping
  | Pong
  | Bad
deriving DecidableEq, Repr

/-- `impl Into<u8> for OpCode` (`src/wsproto.rs` lines 40-56).  The `Bad`
arm carries a `debug_assert!(false, ..)` in the source; in a release build
that assertion vanishes and the arm returns `8`, the close-frame opcode,
which is what this total embedding returns. -/
def opcode_to_wire : OpCode → Nat
  | OpCode.Continue => 0
  | OpCode.Text => 1
  | OpCode.Binary => 2
  | OpCode.Close => 8
  | OpCode.Ping => 9
  | OpCode.Pong => 10
  | OpCode.Bad => 8

/-- `impl From<u8> for OpCode` (`src/wsproto.rs` lines 58-71). -/
def opcode_from_wire (byte : Nat) : OpCode :=
  match byte with
  | 0 => OpCode.Continue
  | 1 => OpCode.Text
  | 2 => OpCode.Binary
  | 8 => OpCode.Close
  | 9 => OpCode.Ping
  | 10 => OpCode.Pong
  | _ => OpCode.Bad

/-- Close status codes, from `enum CloseCode` in `src/wsproto.rs`:
15 named variants plus the payload-carrying fallback `Other`. -/
inductive CloseCode where
  | Normal
  | Away
  | Protocol
  | Unsupported
  | Status
  | Abnormal
  | Invalid
  | Policy
  | Size
  | Extension
  | Error
  | Restart
  | Again
  | Tls
  | Empty
  | Other (code : Nat)
deriving DecidableEq, Repr

/-- `true` on the 15 named variants, `false` on `Other _`. -/
def CloseCode.isNamed : CloseCode → Bool
  | CloseCode.Other _ => false
  | _ => true

/-- `impl Into<u16> for CloseCode` (`src/wsproto.rs` lines 143-165). -/
def closecode_to_wire : CloseCode → Nat
  | CloseCode.Normal => 1000
  | CloseCode.Away => 1001
  | CloseCode.Protocol => 1002
  | CloseCode.Unsupported => 1003
  | CloseCode.Status => 1005
  | CloseCode.Abnormal => 1006
  | CloseCode.Invalid => 1007
  | CloseCode.Policy => 1008
  | CloseCode.Size => 1009
  | CloseCode.Extension => 1010
  | CloseCode.Error => 1011
  | CloseCode.Restart => 1012
  | CloseCode.Again => 1013
  | CloseCode.Tls => 1015
  | CloseCode.Empty => 0
  | CloseCode.Other code => code

/-- `impl From<u16> for CloseCode` (`src/wsproto.rs` lines 167-189). -/
def closecode_from_wire (code : Nat) : CloseCode :=
  match code with
  | 1000 => CloseCode.Normal
  | 1001 => CloseCode.Away
  | 1002 => CloseCode.Protocol
  | 1003 => CloseCode.Unsupported
  | 1005 => CloseCode.Status
  | 1006 => CloseCode.Abnormal
  | 1007 => CloseCode.Invalid
  | 1008 => CloseCode.Policy
  | 1009 => CloseCode.Size
  | 1010 => CloseCode.Extension
  | 1011 => CloseCode.Error
  | 1012 => CloseCode.Restart
  | 1013 => CloseCode.Again
  | 1015 => CloseCode.Tls
  | 0 => CloseCode.Empty
  | _ => CloseCode.Other code

/-- The 15 wire values claimed by named `CloseCode` variants. -/
def namedCloseWireValues : List Nat :=
  [1000, 1001, 1002, 1003, 1005, 1006, 1007, 1008, 1009, 1010, 1011,
   1012, 1013, 1015, 0]

/-- The 15 named `CloseCode` variants. -/
def namedCloseCodes : List CloseCode :=
  [CloseCode.Normal, CloseCode.Away, CloseCode.Protocol,
   CloseCode.Unsupported, CloseCode.Status, CloseCode.Abnormal,
   CloseCode.Invalid, CloseCode.Policy, CloseCode.Size,
   CloseCode.Extension, CloseCode.Error, CloseCode.Restart,
   CloseCode.Again, CloseCode.Tls, CloseCode.Empty]

/-- The base64 alphabet bytes, from `static BASE64` in `src/wsproto.rs`. -/
def BASE64 : List Nat :=
  "ABCDEFGHIJKLMNOPQRSTUVWXYZabcdefghijklmnopqrstuvwxyz0123456789+/".data.map
    Char.toNat

/-- One `write(enc(val))` step of `encode_base64`: look `val` up in the
`BASE64` table (a slice index, which panics when `val` is out of bounds —
modelled by `none`) and store the byte in the next output slot
(`out_iter.next().unwrap()`, which panics when the pre-sized buffer is
exhausted — also modelled by `none`).  The state is the output buffer
paired with the position of the next free slot. -/
def writeChar (st : List Nat × Nat) (val : Nat) : Option (List Nat × Nat) :=
  match BASE64[val]? with
  | none => none
  | some c =>
    if st.2 < st.1.length then some (st.1.set st.2 c, st.2 + 1) else none

/-- The `while let (Some(one), Some(two), Some(three)) = ..` loop of
`encode_base64`: consume the input three bytes at a time, pack them into a
24-bit group and write its four 6-bit slices.  The loop runs over
`data[..len - mod_len]`, whose length is a multiple of three, so the
catch-all arm is only ever reached with an empty list. -/
def encodeGroups : List Nat → List Nat × Nat → Option (List Nat × Nat)
  | one :: two :: three :: rest, st =>
    let g24 := (one <<< 16) ||| (two <<< 8) ||| three
    match writeChar st ((g24 >>> 18) &&& 63) with
    | none => none
    | some st1 =>
      match writeChar st1 ((g24 >>> 12) &&& 63) with
      | none => none
      | some st2 =>
        match writeChar st2 ((g24 >>> 6) &&& 63) with
        | none => none
        | some st3 =>
          match writeChar st3 (g24 &&& 63) with
          | none => none
          | some st4 => encodeGroups rest st4
  | _, st => some st

/-- `String::from_utf8(encoded).unwrap()` at the end of `encode_base64`.
The buffer only ever holds `b'='` and `BASE64` alphabet bytes, all ASCII;
on ASCII-only buffers UTF-8 validation succeeds and yields the character
sequence of those bytes, which is what this models (a byte `>= 128` is
conservatively mapped to `none`). -/
def string_from_utf8 (bs : List Nat) : Option String :=
  if bs.all fun b => decide (b < 128) then
    some (String.mk (bs.map Char.ofNat))
  else none

/-- `fn encode_base64` (`src/wsproto.rs` lines 208-245): allocate
`(len + 2) / 3 * 4` bytes pre-filled with `b'='` (61), write the full
three-byte groups, then the `match mod_len` remainder arms (whose slice
indices `data[len-1]` / `data[len-2]` are modelled fallibly), and convert
the buffer to a string. -/
def encode_base64 (data : List Nat) : Option String :=
  let len := data.length
  let mod_len := len % 3
  let encoded := List.replicate ((len + 2) / 3 * 4) 61
  match encodeGroups (data.take (len - mod_len)) (encoded, 0) with
  | none => none
  | some st0 =>
    match mod_len with
    | 1 =>
      match data[len - 1]? with
      | none => none
      | some b0 =>
        let pad := b0 <<< 16
        match writeChar st0 ((pad >>> 18) &&& 63) with
        | none => none
        | some s1 =>
          match writeChar s1 ((pad >>> 12) &&& 63) with
          | none => none
          | some s2 => string_from_utf8 s2.1
    | 2 =>
      match data[len - 2]?, data[len - 1]? with
      | some b0, some b1 =>
        let pad := (b0 <<< 16) ||| (b1 <<< 8)
        match writeChar st0 ((pad >>> 18) &&& 63) with
        | none => none
        | some s1 =>
          match writeChar s1 ((pad >>> 12) &&& 63) with
          | none => none
          | some s2 =>
            match writeChar s2 ((pad >>> 6) &&& 63) with
            | none => none
            | some s3 => string_from_utf8 s3.1
      | _, _ => none
    | _ => string_from_utf8 st0.1

/-- Left-rotation of a 32-bit word by `n` bits. -/
def rotl32 (n x : Nat) : Nat :=
  ((x <<< n) ||| (x >>> (32 - n))) % 4294967296

/-- The `k` big-endian bytes of `n`, most significant first. -/
def beBytes : Nat → Nat → List Nat
  | 0, _ => []
  | k + 1, n => beBytes k (n / 256) ++ [n % 256]

/-- Big-endian 32-bit words of a byte stream. -/
def bytesToWords : List Nat → List Nat
  | a :: b :: c :: d :: rest =>
    (((a * 256 + b) * 256 + c) * 256 + d) :: bytesToWords rest
  | _ => []

/-- The SHA-1 round function `f_t` (RFC 3174 §5): choice for rounds
0-19, parity for 20-39 and 60-79, majority for 40-59. -/
def sha1F (t b c d : Nat) : Nat :=
  if t < 20 then (b &&& c) ||| ((b ^^^ 4294967295) &&& d)
  else if t < 40 then b ^^^ c ^^^ d
  else if t < 60 then (b &&& c) ||| (b &&& d) ||| (c &&& d)
  else b ^^^ c ^^^ d

/-- The SHA-1 round constants `K_t` (RFC 3174 §5). -/
def sha1K (t : Nat) : Nat :=
  if t < 20 then 1518500249
  else if t < 40 then 1859775393
  else if t < 60 then 2400959708
  else 3395469782

/-- Message-schedule extension: append `k` further words, each the
one-bit left rotation of `W[t-3] xor W[t-8] xor W[t-14] xor W[t-16]`. -/
def extendW : List Nat → Nat → List Nat
  | w, 0 => w
  | w, k + 1 =>
    let n := w.length
    let x := rotl32 1 ((w.getD (n - 3) 0) ^^^ (w.getD (n - 8) 0) ^^^
      (w.getD (n - 14) 0) ^^^ (w.getD (n - 16) 0))
    extendW (w ++ [x]) k

/-- The 80 SHA-1 rounds over a block's schedule words. -/
def sha1Rounds : Nat → List Nat → Nat × Nat × Nat × Nat × Nat →
    Nat × Nat × Nat × Nat × Nat
  | _, [], st => st
  | t, wt :: ws, (a, b, c, d, e) =>
    let temp := (rotl32 5 a + sha1F t b c d + e + wt + sha1K t) % 4294967296
    sha1Rounds (t + 1) ws (temp, a, rotl32 30 b, c, d)

/-- One SHA-1 block compression: run the 80 rounds and add the result
into the chaining state, mod 2^32 per word. -/
def sha1Compress (st : Nat × Nat × Nat × Nat × Nat) (block : List Nat) :
    Nat × Nat × Nat × Nat × Nat :=
  let w := extendW (bytesToWords block) 64
  match st, sha1Rounds 0 w st with
  | (h0, h1, h2, h3, h4), (a, b, c, d, e) =>
    ((h0 + a) % 4294967296, (h1 + b) % 4294967296, (h2 + c) % 4294967296,
     (h3 + d) % 4294967296, (h4 + e) % 4294967296)

/-- Split a byte stream into 64-byte blocks; the fuel argument (any bound
on the number of blocks, here the list length) makes the recursion
structural so that the definition reduces inside the kernel. -/
def chunks64Fuel : Nat → List Nat → List (List Nat)
  | _, [] => []
  | 0, _ => []
  | fuel + 1, a :: rest =>
    ((a :: rest).take 64) :: chunks64Fuel fuel ((a :: rest).drop 64)

/-- Split a byte stream into 64-byte blocks. -/
def chunks64 (l : List Nat) : List (List Nat) := chunks64Fuel l.length l

/-- SHA-1 message padding: a `0x80` byte, zeros to 56 mod 64, then the
bit length as 8 big-endian bytes. -/
def sha1pad (msg : List Nat) : List Nat :=
  let len := msg.length
  let z := (120 - (len + 1) % 64) % 64
  msg ++ [128] ++ List.replicate z 0 ++ beBytes 8 (len * 8)

/-- Modelled from the spec: the trusted 160-bit digest primitive used by
`hash_key`.  The digest implementation lives in the external `sha1` crate,
not in this repository's sources; the spec fixes only that it is the
deterministic 20-byte digest of the input (§4.3, "the trusted 160-bit
digest primitive"), which for the claimed RFC 6455 test vector must be
SHA-1, modelled here per RFC 3174.  Validated against the standard SHA-1
test vectors below. -/
def sha1 (msg : List Nat) : List Nat :=
  let st := (chunks64 (sha1pad msg)).foldl sha1Compress
    (1732584193, 4023233417, 2562383102, 271733878, 3285377520)
  match st with
  | (h0, h1, h2, h3, h4) =>
    beBytes 4 h0 ++ beBytes 4 h1 ++ beBytes 4 h2 ++ beBytes 4 h3 ++
      beBytes 4 h4

/-- `static WS_GUID` in `src/wsproto.rs`. -/
def WS_GUID : String := "258EAFA5-E914-47DA-95CA-C5AB0DC85B11"

/-- The ASCII bytes of a string (all strings hashed here are ASCII). -/
def asciiBytes (s : String) : List Nat := s.data.map Char.toNat

/-- `fn hash_key` (`src/wsproto.rs` lines 197-204): feed the client key
and then `WS_GUID` to the digest, and base64-encode the 20 digest
bytes. -/
def hash_key (key : List Nat) : Option String :=
  encode_base64 (sha1 (key ++ asciiBytes WS_GUID))

/-- The modelled digest reproduces the standard SHA-1 test vector for
`"abc"` (RFC 3174 §7.3), validating the model of the external crate. -/
theorem sha1_abc_vector : sha1 (asciiBytes "abc") =
    [169, 153, 62, 54, 71, 6, 129, 106, 186, 62, 37, 113, 120, 80, 194,
     108, 156, 208, 216, 157] := by decide

/-- The modelled digest reproduces the standard SHA-1 test vector for the
empty message, validating the model of the external crate. -/
theorem sha1_empty_vector : sha1 [] =
    [218, 57, 163, 238, 94, 107, 75, 13, 50, 85, 191, 239, 149, 96, 24,
     144, 175, 216, 7, 9] := by decide

/-! ## Helper lemmas for the base64 encoder -/

/-- The alphabet has 64 entries. -/
theorem BASE64_length : BASE64.length = 64 := by decide

/-- Every alphabet byte is ASCII. -/
theorem BASE64_mem_lt {x : Nat} (hx : x ∈ BASE64) : x < 128 := by
  have h : BASE64.all (fun b => decide (b < 128)) = true := by decide
  exact of_decide_eq_true (List.all_eq_true.mp h x hx)

/-- A 6-bit mask always produces an in-bounds alphabet index. -/
theorem and63_lt (x : Nat) : x &&& 63 < 64 :=
  Nat.lt_succ_of_le Nat.and_le_right

/-- A `write(enc(val))` step succeeds whenever the index is in the
alphabet and a slot is free, advances the slot position by one, keeps the
buffer length, and writes only ASCII bytes. -/
theorem writeChar_spec (buf : List Nat) (pos val : Nat) (hval : val < 64)
    (hpos : pos < buf.length) (hall : ∀ x ∈ buf, x < 128) :
    ∃ buf2, writeChar (buf, pos) val = some (buf2, pos + 1) ∧
      buf2.length = buf.length ∧ ∀ x ∈ buf2, x < 128 := by
  have hv : val < BASE64.length := by rw [BASE64_length]; exact hval
  refine ⟨buf.set pos BASE64[val], ?_, by simp, ?_⟩
  · simp [writeChar, List.getElem?_eq_getElem hv, hpos]
  · intro x hx
    rcases List.mem_or_eq_of_mem_set hx with h | h
    · exact hall x h
    · exact h ▸ BASE64_mem_lt (List.getElem_mem hv)

/-- The three-bytes-at-a-time loop: on an input whose length is a
multiple of three, with enough room in the buffer, it succeeds, writes
four output bytes per three input bytes, and keeps the buffer ASCII. -/
theorem encodeGroups_spec : ∀ (l buf : List Nat) (pos : Nat),
    l.length % 3 = 0 → pos + l.length / 3 * 4 ≤ buf.length →
    (∀ x ∈ buf, x < 128) →
    ∃ buf2, encodeGroups l (buf, pos) =
        some (buf2, pos + l.length / 3 * 4) ∧
      buf2.length = buf.length ∧ ∀ x ∈ buf2, x < 128
  | [], buf, pos, _, _, hall => ⟨buf, by simp [encodeGroups], rfl, hall⟩
  | [_], _, _, h3, _, _ => absurd h3 (by simp)
  | [_, _], _, _, h3, _, _ => absurd h3 (by simp)
  | a :: b :: c :: rest, buf, pos, h3, hle, hall => by
    have hlen : (a :: b :: c :: rest).length = rest.length + 3 := by
      simp
    rw [hlen] at h3 hle
    have hr3 : rest.length % 3 = 0 := by omega
    obtain ⟨buf1, e1, hlen1, hall1⟩ := writeChar_spec buf pos
      (((((a <<< 16) ||| (b <<< 8) ||| c) >>> 18) &&& 63)) (and63_lt _)
      (by omega) hall
    obtain ⟨buf2, e2, hlen2, hall2⟩ := writeChar_spec buf1 (pos + 1)
      (((((a <<< 16) ||| (b <<< 8) ||| c) >>> 12) &&& 63)) (and63_lt _)
      (by omega) hall1
    obtain ⟨buf3, e3, hlen3, hall3⟩ := writeChar_spec buf2 (pos + 1 + 1)
      (((((a <<< 16) ||| (b <<< 8) ||| c) >>> 6) &&& 63)) (and63_lt _)
      (by omega) hall2
    obtain ⟨buf4, e4, hlen4, hall4⟩ := writeChar_spec buf3 (pos + 1 + 1 + 1)
      ((((a <<< 16) ||| (b <<< 8) ||| c)) &&& 63) (and63_lt _)
      (by omega) hall3
    obtain ⟨buf5, e5, hlen5, hall5⟩ := encodeGroups_spec rest buf4
      (pos + 1 + 1 + 1 + 1) hr3 (by omega) hall4
    refine ⟨buf5, ?_, by omega, hall5⟩
    have hpos : pos + 1 + 1 + 1 + 1 + rest.length / 3 * 4 =
        pos + (a :: b :: c :: rest).length / 3 * 4 := by
      rw [hlen]; omega
    simp only [encodeGroups, e1, e2, e3, e4]
    rw [e5, hpos]

/-- UTF-8 conversion succeeds on an ASCII buffer and keeps its length. -/
theorem string_from_utf8_spec (bs : List Nat) (hall : ∀ x ∈ bs, x < 128) :
    ∃ s, string_from_utf8 bs = some s ∧ s.length = bs.length := by
  have hb : (bs.all fun b => decide (b < 128)) = true :=
    List.all_eq_true.mpr fun x hx => decide_eq_true (hall x hx)
  refine ⟨String.mk (bs.map Char.ofNat), ?_, ?_⟩
  · simp [string_from_utf8, hb]
  · simp [String.length]

/-- `encode_base64` succeeds on every input and produces exactly
`(len + 2) / 3 * 4` characters. -/
theorem encode_base64_spec (data : List Nat) :
    ∃ s, encode_base64 data = some s ∧
      s.length = (data.length + 2) / 3 * 4 := by
  have ht : (data.take (data.length - data.length % 3)).length
      = data.length - data.length % 3 := by
    rw [List.length_take]; omega
  obtain ⟨buf0, e0, hlen0, hall0⟩ := encodeGroups_spec
    (data.take (data.length - data.length % 3))
    (List.replicate ((data.length + 2) / 3 * 4) 61) 0
    (by rw [ht]; omega)
    (by rw [ht, List.length_replicate]; omega)
    (fun x hx => by rw [List.eq_of_mem_replicate hx]; norm_num)
  rw [List.length_replicate] at hlen0
  have hm3 : data.length % 3 = 0 ∨ data.length % 3 = 1 ∨
      data.length % 3 = 2 := by omega
  rcases hm3 with hm | hm | hm
  · obtain ⟨s, hs, hslen⟩ := string_from_utf8_spec buf0 hall0
    refine ⟨s, ?_, by omega⟩
    simp only [encode_base64, e0]
    rw [hm]
    exact hs
  · rw [hm] at e0 ht
    have hx1 : data.length - 1 < data.length := by omega
    obtain ⟨b0, eb0⟩ : ∃ b0, data[data.length - 1]? = some b0 :=
      ⟨data[data.length - 1], List.getElem?_eq_getElem hx1⟩
    obtain ⟨buf1, ew1, hlen1, hall1⟩ := writeChar_spec buf0
      (0 + (data.take (data.length - 1)).length / 3 * 4)
      (((b0 <<< 16) >>> 18) &&& 63) (and63_lt _)
      (by rw [hlen0, ht]; omega) hall0
    obtain ⟨buf2, ew2, hlen2, hall2⟩ := writeChar_spec buf1
      (0 + (data.take (data.length - 1)).length / 3 * 4 + 1)
      (((b0 <<< 16) >>> 12) &&& 63) (and63_lt _)
      (by rw [hlen1, hlen0, ht]; omega) hall1
    obtain ⟨s, hs, hslen⟩ := string_from_utf8_spec buf2 hall2
    refine ⟨s, ?_, by omega⟩
    simp only [encode_base64]
    rw [hm]
    simp only [e0, eb0, ew1, ew2]
    exact hs
  · rw [hm] at e0 ht
    have hx1 : data.length - 1 < data.length := by omega
    have hx2 : data.length - 2 < data.length := by omega
    obtain ⟨b0, eb0⟩ : ∃ b0, data[data.length - 2]? = some b0 :=
      ⟨data[data.length - 2], List.getElem?_eq_getElem hx2⟩
    obtain ⟨b1, eb1⟩ : ∃ b1, data[data.length - 1]? = some b1 :=
      ⟨data[data.length - 1], List.getElem?_eq_getElem hx1⟩
    obtain ⟨buf1, ew1, hlen1, hall1⟩ := writeChar_spec buf0
      (0 + (data.take (data.length - 2)).length / 3 * 4)
      ((((b0 <<< 16) ||| (b1 <<< 8)) >>> 18) &&& 63) (and63_lt _)
      (by rw [hlen0, ht]; omega) hall0
    obtain ⟨buf2, ew2, hlen2, hall2⟩ := writeChar_spec buf1
      (0 + (data.take (data.length - 2)).length / 3 * 4 + 1)
      ((((b0 <<< 16) ||| (b1 <<< 8)) >>> 12) &&& 63) (and63_lt _)
      (by rw [hlen1, hlen0, ht]; omega) hall1
    obtain ⟨buf3, ew3, hlen3, hall3⟩ := writeChar_spec buf2
      (0 + (data.take (data.length - 2)).length / 3 * 4 + 1 + 1)
      ((((b0 <<< 16) ||| (b1 <<< 8)) >>> 6) &&& 63) (and63_lt _)
      (by rw [hlen2, hlen1, hlen0, ht]; omega) hall2
    obtain ⟨s, hs, hslen⟩ := string_from_utf8_spec buf3 hall3
    refine ⟨s, ?_, by omega⟩
    simp only [encode_base64]
    rw [hm]
    simp only [e0, eb0, eb1, ew1, ew2, ew3]
    exact hs

/-! ## Claim theorems -/

/-- C1: for the client key given as the ASCII bytes of
`"dGhlIHNhbXBsZSBub25jZQ=="`, `hash_key` returns exactly
`"s3pPLMBiTxaQ9kYGzzhZRbK+xOo="`, and it is by construction the base64
encoding of the 20-byte SHA-1 digest of the client key concatenated
(client key first) with the GUID constant. -/
theorem hash_key_rfc_example :
    hash_key (asciiBytes "dGhlIHNhbXBsZSBub25jZQ==") =
      some "s3pPLMBiTxaQ9kYGzzhZRbK+xOo=" ∧
    hash_key (asciiBytes "dGhlIHNhbXBsZSBub25jZQ==") =
      encode_base64 (sha1 (asciiBytes "dGhlIHNhbXBsZSBub25jZQ==" ++
        asciiBytes "258EAFA5-E914-47DA-95CA-C5AB0DC85B11")) :=
  ⟨by decide, rfl⟩

/-- C2: for every byte sequence, the base64 encoder succeeds and its
output length is `ceil(len/3) * 4 = (len + 2) / 3 * 4`, hence a multiple
of 4; the empty sequence encodes to the empty string. -/
theorem encode_base64_length_spec :
    encode_base64 [] = some "" ∧
    ∀ (data : List Nat), (∀ x ∈ data, x < 256) →
      ∃ s, encode_base64 data = some s ∧
        s.length = (data.length + 2) / 3 * 4 ∧ s.length % 4 = 0 := by
  refine ⟨by decide, fun data _ => ?_⟩
  obtain ⟨s, hs, hlen⟩ := encode_base64_spec data
  exact ⟨s, hs, hlen, by omega⟩

/-- C2 witness at a concrete input. -/
theorem encode_base64_length_spec_witness :
    ∃ s, encode_base64 [102, 111] = some s ∧
      s.length = ([102, 111].length + 2) / 3 * 4 ∧ s.length % 4 = 0 :=
  encode_base64_length_spec.2 [102, 111] (by decide)

/-- C3: the base64 encoder reproduces the RFC 4648 test vectors for the
1-leftover, 2-leftover and full-group remainder branches. -/
theorem encode_base64_rfc_vectors :
    encode_base64 [0x66] = some "Zg==" ∧
    encode_base64 [0x66, 0x6F] = some "Zm8=" ∧
    encode_base64 [0x66, 0x6F, 0x6F] = some "Zm9v" := by
  refine ⟨by decide, by decide, by decide⟩

/-- C4: the base64 encoder is total and panic-free over every byte
sequence: every modelled failure point (buffer slot exhaustion, alphabet
lookup, UTF-8 conversion) is avoided, so the result is always `some`. -/
theorem encode_base64_total (data : List Nat) (h : ∀ x ∈ data, x < 256) :
    (encode_base64 data).isSome = true := by
  obtain ⟨s, hs, _⟩ := encode_base64_spec data
  rw [hs]; rfl

/-- C4 witness at concrete inputs. -/
theorem encode_base64_total_witness :
    (∀ x ∈ ([] : List Nat), x < 256) ∧
      (encode_base64 []).isSome = true ∧
    (∀ x ∈ [255, 0, 1, 2], x < 256) ∧
      (encode_base64 [255, 0, 1, 2]).isSome = true :=
  ⟨by decide, encode_base64_total [] (by decide), by decide,
   encode_base64_total [255, 0, 1, 2] (by decide)⟩

/-- C5: every named close code round-trips through the wire, and every
16-bit value outside the 15 named wire values decodes to `Other n`, which
encodes back to `n`. -/
theorem closecode_roundtrip :
    (∀ x : CloseCode, CloseCode.isNamed x = true →
      closecode_from_wire (closecode_to_wire x) = x) ∧
    (∀ n : Nat, n < 65536 → n ∉ namedCloseWireValues →
      closecode_from_wire n = CloseCode.Other n ∧
      closecode_to_wire (CloseCode.Other n) = n) := by
  constructor
  · intro x hx
    cases x <;> first | rfl | simp [CloseCode.isNamed] at hx
  · intro n hlt hmem
    refine ⟨?_, rfl⟩
    unfold closecode_from_wire
    split <;> simp_all [namedCloseWireValues]

/-- C5 witness: a named variant and an unnamed value. -/
theorem closecode_roundtrip_witness :
    (CloseCode.isNamed CloseCode.Tls = true ∧
      closecode_from_wire (closecode_to_wire CloseCode.Tls) =
        CloseCode.Tls) ∧
    (1004 < 65536 ∧ (1004 : Nat) ∉ namedCloseWireValues ∧
      closecode_from_wire 1004 = CloseCode.Other 1004 ∧
      closecode_to_wire (CloseCode.Other 1004) = 1004) :=
  ⟨⟨by decide, closecode_roundtrip.1 CloseCode.Tls (by decide)⟩,
   by decide, by decide,
   closecode_roundtrip.2 1004 (by decide) (by decide)⟩

/-- C6 counterexample: 1004 lies in the claimed range 1000-1013, yet it
decodes to `Other 1004`, not to a named variant, contradicting the claim
that every integer from 1000 to 1013 inclusive decodes to a named
variant. -/
theorem closecode_coverage_counterexample :
    closecode_from_wire 1004 = CloseCode.Other 1004 ∧
    CloseCode.isNamed (closecode_from_wire 1004) = false := by
  refine ⟨by decide, by decide⟩

/-- C6 (amended): the named close-code table covers exactly the wire
values 1000-1003, 1005-1013, 1015 and 0 (1000-1013 except the reserved
1004): each named variant encodes into that set, and every value in that
set decodes to a named variant. -/
theorem closecode_named_coverage :
    (namedCloseCodes.all fun x =>
      decide (closecode_to_wire x ∈ namedCloseWireValues)) = true ∧
    (namedCloseWireValues.all fun n =>
      CloseCode.isNamed (closecode_from_wire n)) = true := by
  refine ⟨by decide, by decide⟩

/-- C7: every opcode other than `Bad` round-trips through the wire. -/
theorem opcode_roundtrip (x : OpCode) (h : x ≠ OpCode.Bad) :
    opcode_from_wire (opcode_to_wire x) = x := by
  cases x <;> first | rfl | exact absurd rfl h

/-- C7 witness at a concrete opcode. -/
theorem opcode_roundtrip_witness :
    OpCode.Pong ≠ OpCode.Bad ∧
    opcode_from_wire (opcode_to_wire OpCode.Pong) = OpCode.Pong :=
  ⟨by decide, opcode_roundtrip OpCode.Pong (by decide)⟩

/-- C8: over the full 8-bit domain, every value outside
{0, 1, 2, 8, 9, 10} decodes to `Bad` (and the conversion is a total
function, so it never fails). -/
theorem opcode_from_wire_unassigned (n : Nat) (hlt : n < 256)
    (h : n ∉ [0, 1, 2, 8, 9, 10]) : opcode_from_wire n = OpCode.Bad := by
  unfold opcode_from_wire
  split <;> simp_all

/-- C8 witness at a concrete unassigned value. -/
theorem opcode_from_wire_unassigned_witness :
    (7 : Nat) < 256 ∧ (7 : Nat) ∉ [0, 1, 2, 8, 9, 10] ∧
    opcode_from_wire 7 = OpCode.Bad :=
  ⟨by decide, by decide, opcode_from_wire_unassigned 7 (by decide) (by decide)⟩

/-- C9: converting `Bad` to the wire is total and substitutes the close
frame's wire value 8 (the source's `debug_assert!` disappears in release
builds and the arm returns 8, the same value as `Close`). -/
theorem opcode_to_wire_bad :
    opcode_to_wire OpCode.Bad = 8 ∧
    opcode_to_wire OpCode.Bad = opcode_to_wire OpCode.Close :=
  ⟨rfl, rfl⟩

/-- C10: decode-then-encode is the identity on the whole 16-bit
close-code domain, named values and unassigned ones alike. -/
theorem closecode_decode_encode (n : Nat) (h : n < 65536) :
    closecode_to_wire (closecode_from_wire n) = n := by
  unfold closecode_from_wire
  split <;> simp_all [closecode_to_wire]

/-- C10 witness: a named value and the unassigned 1004. -/
theorem closecode_decode_encode_witness :
    (1000 < 65536 ∧
      closecode_to_wire (closecode_from_wire 1000) = 1000) ∧
    (1004 < 65536 ∧
      closecode_to_wire (closecode_from_wire 1004) = 1004) :=
  ⟨⟨by decide, closecode_decode_encode 1000 (by decide)⟩,
   ⟨by decide, closecode_decode_encode 1004 (by decide)⟩⟩
